import Mathlib

/-!
Shallow embedding of `fake_job_guru/scam_detector.py`: the scam-detection
risk-scoring pipeline (`_safe_int`, `_compute_company_strength`,
`_heuristic_flags`, `_composite_risk`, the keyword matcher and
`predict_job`).  Python strings are modelled as `List Char`, Python `float`
arithmetic as exact `ℚ` arithmetic, and a Python exception escaping a
function as `Option.none`.
-/

namespace FakeJobGuru

/-- Model of a Python value supplied for one of the numeric parameters of
`predict_job`.  `vint` is an `int`, `vstr` a string, and `vother` stands for
any other value, on which Python `int()` raises `TypeError`. -/
inductive PyVal where
  | vint (n : ℤ)
  | vstr (s : List Char)
  | vother
deriving DecidableEq

/-- Value of a run of decimal digits accumulated left to right; `none` as
soon as a non-digit character occurs. -/
def digitsValAux (acc : ℕ) : List Char → Option ℕ
  | [] => some acc
  | c :: cs => if c.isDigit then digitsValAux (10 * acc + (c.toNat - 48)) cs else none

/-- Embedding of Python `int(s)` on strings, restricted to an optional minus
sign followed by decimal digits.  (CPython also strips surrounding
whitespace and accepts a plus sign and digit-group underscores; such inputs
are not exercised in this development and are mapped to `none`.) -/
def pyParseInt : List Char → Option ℤ
  | [] => none
  | '-' :: rest => if rest.isEmpty then none else (digitsValAux 0 rest).map (fun n => -(n : ℤ))
  | c :: rest => (digitsValAux 0 (c :: rest)).map (fun n => (n : ℤ))

/-- Embedding of Python `int(value)` applied to a `PyVal`: `none` models the
call raising `TypeError` or `ValueError`. -/
def coerceInt : PyVal → Option ℤ
  | PyVal.vint n => some n
  | PyVal.vstr s => pyParseInt s
  | PyVal.vother => none

/-- Embedding of `_safe_int` (scam_detector.py lines 47-53): `None` and any
value on which `int()` raises are replaced by `default`. -/
def _safe_int (value : Option PyVal) (default : ℤ) : ℤ :=
  match value with
  | none => default
  | some v => (coerceInt v).getD default

/-- Embedding of `_compute_company_strength` (scam_detector.py lines
56-62). -/
def _compute_company_strength (followers employees : ℤ) : List Char :=
  if followers < 500 ∨ employees < 20 then ("weak").data
  else if 500 ≤ followers ∧ followers ≤ 5000 then ("medium").data
  else ("strong").data

/-- Characters on which Python `str.split()` and `str.strip()` split,
restricted to ASCII whitespace. -/
def pyIsSpace (c : Char) : Bool :=
  c == ' ' || c == '\t' || c == '\n' || c == '\r' || c == '\x0b' || c == '\x0c'

/-- Embedding of Python `str.lower()`; `Char.toLower` lowers exactly the
ASCII upper-case letters, which agrees with CPython on ASCII text. -/
def pyLower (l : List Char) : List Char := l.map Char.toLower

/-- Embedding of the Python substring test `pat in text`. -/
def containsSub (pat : List Char) : List Char → Bool
  | [] => pat.isEmpty
  | c :: rest => pat.isPrefixOf (c :: rest) || containsSub pat rest

/-- Embedding of Python `str.strip()` (ASCII whitespace). -/
def pyStrip (l : List Char) : List Char :=
  ((l.dropWhile pyIsSpace).reverse.dropWhile pyIsSpace).reverse

/-- Worker for `pySplit`; `acc` holds the reversed current word. -/
def pySplitAux : List Char → List Char → List (List Char)
  | [], acc => if acc.isEmpty then [] else [acc.reverse]
  | c :: cs, acc =>
      if pyIsSpace c then
        if acc.isEmpty then pySplitAux cs [] else acc.reverse :: pySplitAux cs []
      else pySplitAux cs (c :: acc)

/-- Embedding of Python `str.split()` with no argument: maximal runs of
non-whitespace characters, empty words dropped. -/
def pySplit (l : List Char) : List (List Char) := pySplitAux l []

/-- Record returned by `_heuristic_flags` (the Python function returns a
dict with these four keys). -/
structure HeurFlags where
  missing_website_flag : ℤ
  suspicious_email_flag : ℤ
  short_profile_flag : ℤ
  suspicion_score : ℤ
deriving DecidableEq

/-- Embedding of the inner helper `suspicious_contact` of `_heuristic_flags`
(scam_detector.py lines 72-75). -/
def suspicious_contact (text : List Char) : ℤ :=
  if [("gmail").data, ("yahoo").data, ("telegram").data, ("whatsapp").data].any
      (fun term => containsSub term (pyLower text)) then 1 else 0

/-- Embedding of `_heuristic_flags` (scam_detector.py lines 65-86). -/
def _heuristic_flags (company_profile description requirements : Option (List Char)) :
    HeurFlags :=
  let text_profile := company_profile.getD []
  let text_desc := description.getD []
  let text_req := requirements.getD []
  let missing_website_flag : ℤ :=
    if text_profile.length = 0 ∨ containsSub ("http").data (pyLower text_profile) = false
    then 1 else 0
  let suspicious_email_flag : ℤ :=
    if suspicious_contact text_desc = 1 ∨ suspicious_contact text_req = 1 then 1 else 0
  let short_profile_flag : ℤ :=
    if (pyStrip text_profile).length = 0 ∨ (pySplit text_profile).length < 30 then 1 else 0
  { missing_website_flag := missing_website_flag
    suspicious_email_flag := suspicious_email_flag
    short_profile_flag := short_profile_flag
    suspicion_score := missing_website_flag + suspicious_email_flag + short_profile_flag }

/-- The per-factor breakdown dict built by `_composite_risk`. -/
structure RiskBreakdown where
  model_probability : ℚ
  weak_company : ℚ
  suspicion_score : ℚ
  keyword_hits : ℚ
  clamped : Bool
deriving DecidableEq

/-- The dict returned by `_composite_risk`: final score plus breakdown. -/
structure RiskResult where
  score : ℚ
  breakdown : RiskBreakdown
deriving DecidableEq

/-- Embedding of `_composite_risk` (scam_detector.py lines 89-113), with
Python `float` arithmetic idealised as exact rational arithmetic. -/
def _composite_risk (prob_scam : ℚ) (weak_company : Bool)
    (suspicion_score : ℤ) (keyword_hits : ℤ) : RiskResult :=
  let base := prob_scam
  let contrib_weak_company : ℚ := if weak_company then 8/100 else 0
  let contrib_suspicion : ℚ := min (12/100) ((4/100) * ((max 0 suspicion_score : ℤ) : ℚ))
  let contrib_keywords : ℚ := min (10/100) ((3/100) * ((max 0 keyword_hits : ℤ) : ℚ))
  let raw_score := base + contrib_weak_company + contrib_suspicion + contrib_keywords
  let score := max 0 (min 1 raw_score)
  { score := score
    breakdown :=
      { model_probability := base
        weak_company := contrib_weak_company
        suspicion_score := contrib_suspicion
        keyword_hits := contrib_keywords
        clamped := decide (score ≠ raw_score) } }

/-- Embedding of `SCAM_KEYWORDS` (scam_detector.py lines 41-45), in source
order. -/
def SCAM_KEYWORDS : List (List Char) :=
  [("work from home").data, ("no experience").data, ("quick money").data,
   ("earn $").data, ("gmail.com").data, ("telegram").data, ("whatsapp").data,
   ("fast cash").data, ("limited slots").data, ("easy income").data]

/-- Test for a match of the regex `gmail.com` at the head of the list: the
`.` metacharacter matches any single character except a newline. -/
def gmailHere : List Char → Bool
  | 'g' :: 'm' :: 'a' :: 'i' :: 'l' :: c :: 'c' :: 'o' :: 'm' :: _ => decide (c ≠ '\n')
  | _ => false

/-- Search for the regex `gmail.com` anywhere in the list, as
`re.search("gmail.com", text)` does. -/
def searchGmailCom : List Char → Bool
  | [] => false
  | c :: rest => gmailHere (c :: rest) || searchGmailCom rest

/-- Embedding of `re.search(kw, text)` for the ten fixed entries of
`SCAM_KEYWORDS` (scam_detector.py line 156).  Two entries contain regex
metacharacters: in `earn $` the `$` anchors at the end of the string or just
before a single trailing newline, and in `gmail.com` the `.` matches any
character except a newline.  The remaining eight entries are literal and
behave as plain substring search. -/
def kwMatches (kw : List Char) (text : List Char) : Bool :=
  if kw = ("earn $").data then
    ("earn ").data.isSuffixOf text || ("earn \n").data.isSuffixOf text
  else if kw = ("gmail.com").data then searchGmailCom text
  else containsSub kw text

/-- Model of the loaded classifier artifact: `predict_proba` gives the
probability vector for a text, and `classes_opt` is `some` the class-label
list when the object exposes a `classes_` attribute, `none` when it does
not. -/
structure PyModel where
  predict_proba : List Char → List ℚ
  classes_opt : Option (List ℤ)

/-- Embedding of `getattr(model, "classes_", [0, 1])` followed by `list(...)`
(scam_detector.py line 149). -/
def classSeq (m : PyModel) : List ℤ := m.classes_opt.getD [0, 1]

/-- Embedding of Python `list.index(a)`: index of the first occurrence,
`none` modelling the `ValueError` when absent. -/
def listIndex (a : ℤ) : List ℤ → Option ℕ
  | [] => none
  | x :: xs => if x = a then some 0 else (listIndex a xs).map (fun i => i + 1)

/-- Embedding of the scam-class index selection (scam_detector.py lines
148-151): `list(getattr(model, "classes_", [0, 1])).index(1)` with the
`ValueError` fallback `1 if len(proba) > 1 else 0`. -/
def idxScam (m : PyModel) (proba : List ℚ) : ℕ :=
  match listIndex 1 (classSeq m) with
  | some i => i
  | none => if 1 < proba.length then 1 else 0

/-- Embedding of lines 146-152: `proba = model.predict_proba([text])[0]`
then `prob_scam = float(proba[idx_scam])`; `none` models the `IndexError`
raised when the chosen index is outside the probability vector. -/
def probScam (m : PyModel) (text : List Char) : Option ℚ :=
  let proba := m.predict_proba text
  proba.get? (idxScam m proba)

/-- Round to the nearest integer, ties to even — the rounding CPython's
`round` applies (idealised to exact rationals). -/
def roundHalfEven (x : ℚ) : ℤ :=
  let f := ⌊x⌋
  let r := x - (f : ℚ)
  if r < 1/2 then f
  else if 1/2 < r then f + 1
  else if f % 2 = 0 then f else f + 1

/-- Embedding of Python `round(x, 4)` on the idealised rational value. -/
def round4 (x : ℚ) : ℚ := ((roundHalfEven (x * 10000) : ℤ) : ℚ) / 10000

/-- The `probabilities` sub-dict of the result. -/
structure Probabilities where
  scam : ℚ
  legit : ℚ
deriving DecidableEq

/-- The `signals` sub-dict of the result. -/
structure Signals where
  keywords_triggered : List (List Char)
  weak_company : Bool
  company_strength : List Char
  followers : ℤ
  employees : ℤ
  engagement : ℤ
  missing_website_flag : ℤ
  suspicious_email_flag : ℤ
  short_profile_flag : ℤ
  suspicion_score : ℤ
deriving DecidableEq

/-- The dict returned by `predict_job` (the constant `model_artifact` path
entry, pure startup configuration, is not modelled). -/
structure PredictionResult where
  prediction : List Char
  probabilities : Probabilities
  risk_score : ℚ
  signals : Signals
  risk_breakdown : RiskBreakdown
deriving DecidableEq

/-- Embedding of line 137-142: `" ".join([str(title or ""), ...])`. -/
def combineText (title description requirements company_profile : Option (List Char)) :
    List Char :=
  (title.getD []) ++ ' ' :: ((description.getD []) ++ ' ' ::
    ((requirements.getD []) ++ ' ' :: (company_profile.getD [])))

/-- Success-path result construction of `predict_job`, given the already
extracted scam probability and the integer-coerced flag values. -/
def buildResult
    (title description requirements company_profile : Option (List Char))
    (followers employees engagement : Option PyVal)
    (company_strength : Option (List Char))
    (prob_scam : ℚ) (ssi mwi sei spi : ℤ) : PredictionResult :=
  let text := combineText title description requirements company_profile
  let lowered := pyLower text
  let found_keywords := SCAM_KEYWORDS.filter (fun kw => kwMatches kw lowered)
  let followers_i := _safe_int followers 0
  let employees_i := _safe_int employees 0
  let engagement_i := _safe_int engagement 0
  let strength :=
    match company_strength with
    | none => _compute_company_strength followers_i employees_i
    | some s => if s.isEmpty then _compute_company_strength followers_i employees_i else s
  let weak_company := decide (followers_i < 500 ∨ employees_i < 10 ∨ engagement_i < 5)
  let risk := _composite_risk prob_scam weak_company ssi (found_keywords.length : ℤ)
  { prediction := if (1 : ℚ)/2 ≤ prob_scam then ("scam").data else ("legit").data
    probabilities := { scam := round4 prob_scam, legit := round4 (1 - prob_scam) }
    risk_score := round4 risk.score
    signals :=
      { keywords_triggered := found_keywords
        weak_company := weak_company
        company_strength := strength
        followers := followers_i
        employees := employees_i
        engagement := engagement_i
        missing_website_flag := mwi
        suspicious_email_flag := sei
        short_profile_flag := spi
        suspicion_score := ssi }
    risk_breakdown := risk.breakdown }

/-- Embedding of `predict_job` (scam_detector.py lines 116-206).  `none`
models an exception escaping the call: an `IndexError` from the probability
lookup, or a `TypeError`/`ValueError` from the unguarded `int(...)` calls on
the four flag parameters (lines 176 and 195-198).  The heuristic flags are
merged per field exactly as lines 168-173 do; `_heuristic_flags` is pure, so
evaluating it unconditionally is observationally identical to the source's
guard `if any of the four parameters is None`. -/
def predict_job (m : PyModel)
    (title description requirements company_profile : Option (List Char))
    (followers employees engagement : Option PyVal)
    (company_strength : Option (List Char))
    (missing_website_flag suspicious_email_flag short_profile_flag suspicion_score :
      Option PyVal) : Option PredictionResult :=
  let text := combineText title description requirements company_profile
  match probScam m text with
  | none => none
  | some prob_scam =>
    let heur := _heuristic_flags company_profile description requirements
    let mwv := missing_website_flag.getD (PyVal.vint heur.missing_website_flag)
    let sev := suspicious_email_flag.getD (PyVal.vint heur.suspicious_email_flag)
    let spv := short_profile_flag.getD (PyVal.vint heur.short_profile_flag)
    let ssv := suspicion_score.getD (PyVal.vint heur.suspicion_score)
    match coerceInt ssv, coerceInt mwv, coerceInt sev, coerceInt spv with
    | some ssi, some mwi, some sei, some spi =>
        some (buildResult title description requirements company_profile
          followers employees engagement company_strength prob_scam ssi mwi sei spi)
    | _, _, _, _ => none

/-- Stand-in for the loaded artifact in concrete evaluations: a model whose
probability vector is constantly `[3/10, 7/10]` with the usual class order
`[0, 1]`. -/
def testModel : PyModel :=
  { predict_proba := fun _ => [3/10, 7/10], classes_opt := some [0, 1] }

/-- Stand-in artifact exposing no `classes_` attribute and producing a
single-entry probability vector. -/
def oneClassModel : PyModel :=
  { predict_proba := fun _ => [3/5], classes_opt := none }

/-- Placeholder result used with `Option.getD` in concrete statements. -/
def dfltResult : PredictionResult :=
  { prediction := []
    probabilities := { scam := 0, legit := 0 }
    risk_score := 0
    signals :=
      { keywords_triggered := []
        weak_company := false
        company_strength := []
        followers := 0
        employees := 0
        engagement := 0
        missing_website_flag := 0
        suspicious_email_flag := 0
        short_profile_flag := 0
        suspicion_score := 0 }
    risk_breakdown :=
      { model_probability := 0
        weak_company := 0
        suspicion_score := 0
        keyword_hits := 0
        clamped := false } }

/-! Helper lemmas shared by the claim theorems. -/

/-- An option known to be `some` equals `some` of its `getD` value. -/
theorem opt_eq_some_getD {α : Type} {o : Option α} (d : α) (h : o.isSome = true) :
    o = some (o.getD d) := by
  cases o with
  | none => simp at h
  | some a => rfl

/-- Lower bound for half-even rounding. -/
theorem roundHalfEven_nonneg {x : ℚ} (hx : 0 ≤ x) : 0 ≤ roundHalfEven x := by
  have hf : (0 : ℤ) ≤ ⌊x⌋ := Int.floor_nonneg.mpr hx
  unfold roundHalfEven
  dsimp only
  split
  · exact hf
  · split
    · omega
    · split <;> omega

/-- Upper bound for half-even rounding. -/
theorem roundHalfEven_le {x : ℚ} {N : ℤ} (h : x ≤ (N : ℚ)) : roundHalfEven x ≤ N := by
  have hfl : ⌊x⌋ ≤ N := by
    calc ⌊x⌋ ≤ ⌊(N : ℚ)⌋ := Int.floor_le_floor h
    _ = N := Int.floor_intCast N
  have hsucc : 1/2 ≤ x - (⌊x⌋ : ℚ) → ⌊x⌋ + 1 ≤ N := by
    intro hr
    have hx2 : (⌊x⌋ : ℚ) + 1/2 ≤ (N : ℚ) := by linarith
    have : (⌊x⌋ : ℚ) < (N : ℚ) := by linarith
    have : ⌊x⌋ < N := by exact_mod_cast this
    omega
  unfold roundHalfEven
  dsimp only
  split
  · exact hfl
  · next hlt =>
    split
    · next hgt => exact hsucc (le_of_lt hgt)
    · split
      · exact hfl
      · exact hsucc (le_of_not_lt hlt)

/-- Rounding to four decimal places preserves containment in `[0, 1]`. -/
theorem round4_mem_unit {x : ℚ} (h0 : 0 ≤ x) (h1 : x ≤ 1) :
    0 ≤ round4 x ∧ round4 x ≤ 1 := by
  have hlo : (0 : ℤ) ≤ roundHalfEven (x * 10000) := roundHalfEven_nonneg (by positivity)
  have hhi : roundHalfEven (x * 10000) ≤ (10000 : ℤ) := by
    apply roundHalfEven_le
    push_cast
    linarith
  unfold round4
  constructor
  · positivity
  · rw [div_le_one (by norm_num)]
    exact_mod_cast hhi

/-- Inversion principle for a successful `predict_job` call: it forces a
successful probability extraction, four successful integer coercions of the
merged flag values, and the result is `buildResult` of those values. -/
theorem predict_job_inv {m : PyModel}
    {t d r p : Option (List Char)} {fo em en : Option PyVal}
    {cs : Option (List Char)} {mw se sp ss : Option PyVal} {res : PredictionResult}
    (h : predict_job m t d r p fo em en cs mw se sp ss = some res) :
    ∃ prob ssi mwi sei spi,
      probScam m (combineText t d r p) = some prob ∧
      coerceInt (ss.getD (PyVal.vint (_heuristic_flags p d r).suspicion_score)) = some ssi ∧
      coerceInt (mw.getD (PyVal.vint (_heuristic_flags p d r).missing_website_flag)) = some mwi ∧
      coerceInt (se.getD (PyVal.vint (_heuristic_flags p d r).suspicious_email_flag)) = some sei ∧
      coerceInt (sp.getD (PyVal.vint (_heuristic_flags p d r).short_profile_flag)) = some spi ∧
      res = buildResult t d r p fo em en cs prob ssi mwi sei spi := by
  unfold predict_job at h
  dsimp only at h
  cases hp : probScam m (combineText t d r p) with
  | none => rw [hp] at h; exact absurd h (by simp)
  | some prob =>
    rw [hp] at h
    dsimp only at h
    cases hss : coerceInt (ss.getD (PyVal.vint (_heuristic_flags p d r).suspicion_score)) with
    | none => rw [hss] at h; exact absurd h (by simp)
    | some ssi =>
      cases hmw : coerceInt (mw.getD (PyVal.vint (_heuristic_flags p d r).missing_website_flag)) with
      | none => rw [hss, hmw] at h; exact absurd h (by simp)
      | some mwi =>
        cases hse : coerceInt (se.getD (PyVal.vint (_heuristic_flags p d r).suspicious_email_flag)) with
        | none => rw [hss, hmw, hse] at h; exact absurd h (by simp)
        | some sei =>
          cases hsp : coerceInt (sp.getD (PyVal.vint (_heuristic_flags p d r).short_profile_flag)) with
          | none => rw [hss, hmw, hse, hsp] at h; exact absurd h (by simp)
          | some spi =>
            rw [hss, hmw, hse, hsp] at h
            exact ⟨prob, ssi, mwi, sei, spi, rfl, rfl, rfl, rfl, rfl,
              (Option.some.inj h).symm⟩

/-- Construction principle: successful probability extraction and coercions
give a successful `predict_job` call. -/
theorem predict_job_eq_some {m : PyModel}
    {t d r p : Option (List Char)} {fo em en : Option PyVal}
    {cs : Option (List Char)} {mw se sp ss : Option PyVal}
    {prob : ℚ} {ssi mwi sei spi : ℤ}
    (hp : probScam m (combineText t d r p) = some prob)
    (hss : coerceInt (ss.getD (PyVal.vint (_heuristic_flags p d r).suspicion_score)) = some ssi)
    (hmw : coerceInt (mw.getD (PyVal.vint (_heuristic_flags p d r).missing_website_flag)) = some mwi)
    (hse : coerceInt (se.getD (PyVal.vint (_heuristic_flags p d r).suspicious_email_flag)) = some sei)
    (hsp : coerceInt (sp.getD (PyVal.vint (_heuristic_flags p d r).short_profile_flag)) = some spi) :
    predict_job m t d r p fo em en cs mw se sp ss =
      some (buildResult t d r p fo em en cs prob ssi mwi sei spi) := by
  unfold predict_job
  dsimp only
  rw [hp]
  dsimp only
  rw [hss, hmw, hse, hsp]

/-- Bounds for the composite score before rounding. -/
theorem composite_score_mem_unit (pq : ℚ) (w : Bool) (s k : ℤ) :
    0 ≤ (_composite_risk pq w s k).score ∧ (_composite_risk pq w s k).score ≤ 1 := by
  unfold _composite_risk
  dsimp only
  exact ⟨le_max_left 0 _, max_le (by norm_num) (min_le_left 1 _)⟩

/-- The rounded `risk_score` field of a built result stays in `[0, 1]`. -/
theorem buildResult_risk_mem_unit
    (t d r p : Option (List Char)) (fo em en : Option PyVal)
    (cs : Option (List Char)) (prob : ℚ) (ssi mwi sei spi : ℤ) :
    0 ≤ (buildResult t d r p fo em en cs prob ssi mwi sei spi).risk_score ∧
      (buildResult t d r p fo em en cs prob ssi mwi sei spi).risk_score ≤ 1 := by
  unfold buildResult
  dsimp only
  exact round4_mem_unit (composite_score_mem_unit _ _ _ _).1 (composite_score_mem_unit _ _ _ _).2

/-- C9: company-strength classification is first-match-wins — `weak` exactly
when `followers < 500` or `employees < 20`, `medium` exactly when that fails
and `500 ≤ followers ≤ 5000`, `strong` otherwise; in particular every pair
with `followers > 5000` and `employees < 20` classifies as `weak`; and
`predict_job` applies this classification to the coerced follower/employee
counts whenever the caller does not supply `company_strength`. -/
theorem C9_theorem :
    (∀ f e : ℤ, 5000 < f → e < 20 → _compute_company_strength f e = ("weak").data) ∧
    (∀ f e : ℤ,
      (_compute_company_strength f e = ("weak").data ↔ f < 500 ∨ e < 20) ∧
      (_compute_company_strength f e = ("medium").data ↔
        ¬(f < 500 ∨ e < 20) ∧ 500 ≤ f ∧ f ≤ 5000) ∧
      (_compute_company_strength f e = ("strong").data ↔
        ¬(f < 500 ∨ e < 20) ∧ ¬(500 ≤ f ∧ f ≤ 5000))) ∧
    (∀ (m : PyModel) (t d r p : Option (List Char)) (fo em en : Option PyVal)
        (mw se sp ss : Option PyVal) (res : PredictionResult),
      predict_job m t d r p fo em en none mw se sp ss = some res →
        res.signals.company_strength =
          _compute_company_strength (_safe_int fo 0) (_safe_int em 0)) := by
  refine ⟨?_, ?_, ?_⟩
  · intro f e _ h2
    unfold _compute_company_strength
    rw [if_pos (Or.inr h2)]
  · intro f e
    unfold _compute_company_strength
    split_ifs with h1 h2 <;> refine ⟨?_, ?_, ?_⟩ <;> simp_all
  · intro m t d r p fo em en mw se sp ss res h
    obtain ⟨prob, ssi, mwi, sei, spi, hp, h1, h2, h3, h4, hres⟩ := predict_job_inv h
    subst hres
    rfl

/-- Witness for C9 at followers 6000, employees 3. -/
theorem C9_witness : _compute_company_strength 6000 3 = ("weak").data :=
  C9_theorem.1 6000 3 (by decide) (by decide)

/-- C8: with the model probability, the weak-company value and the other
count fixed, the composite risk score is monotone in the keyword hit count
and in the suspicion score. -/
theorem C8_theorem :
    (∀ (pq : ℚ) (w : Bool) (s k k' : ℤ), k ≤ k' →
      (_composite_risk pq w s k).score ≤ (_composite_risk pq w s k').score) ∧
    (∀ (pq : ℚ) (w : Bool) (s s' k : ℤ), s ≤ s' →
      (_composite_risk pq w s k).score ≤ (_composite_risk pq w s' k).score) := by
  constructor
  · intro pq w s k k' hk
    unfold _composite_risk
    dsimp only
    have h1 : ((max 0 k : ℤ) : ℚ) ≤ ((max 0 k' : ℤ) : ℚ) := by
      exact_mod_cast max_le_max le_rfl hk
    have h2 : (3 : ℚ)/100 * ((max 0 k : ℤ) : ℚ) ≤ (3 : ℚ)/100 * ((max 0 k' : ℤ) : ℚ) :=
      mul_le_mul_of_nonneg_left h1 (by norm_num)
    have h3 := min_le_min (le_refl ((10 : ℚ)/100)) h2
    exact max_le_max le_rfl (min_le_min le_rfl (by linarith))
  · intro pq w s s' k hs
    unfold _composite_risk
    dsimp only
    have h1 : ((max 0 s : ℤ) : ℚ) ≤ ((max 0 s' : ℤ) : ℚ) := by
      exact_mod_cast max_le_max le_rfl hs
    have h2 : (4 : ℚ)/100 * ((max 0 s : ℤ) : ℚ) ≤ (4 : ℚ)/100 * ((max 0 s' : ℤ) : ℚ) :=
      mul_le_mul_of_nonneg_left h1 (by norm_num)
    have h3 := min_le_min (le_refl ((12 : ℚ)/100)) h2
    exact max_le_max le_rfl (min_le_min le_rfl (by linarith))

/-- Witness for C8 at probability 1/2, one extra keyword hit. -/
theorem C8_witness :
    (_composite_risk ((1 : ℚ)/2) false 0 0).score ≤ (_composite_risk ((1 : ℚ)/2) false 0 1).score :=
  C8_theorem.1 ((1 : ℚ)/2) false 0 0 1 (by decide)

/-- C4: the composite score is exactly the clamp to `[0, 1]` of the model
probability plus the three capped contributions, hence always lies in
`[0, 1]`; the breakdown's `clamped` field is true exactly when the final
score differs from the raw sum of the reported contributions; and the
`risk_score` returned by `predict_job` (the rounded composite) also lies in
`[0, 1]`. -/
theorem C4_theorem :
    (∀ (pq : ℚ) (w : Bool) (s k : ℤ),
      (_composite_risk pq w s k).score =
        max 0 (min 1 (pq + (if w then 8/100 else 0)
          + min (12/100) ((4/100) * ((max 0 s : ℤ) : ℚ))
          + min (10/100) ((3/100) * ((max 0 k : ℤ) : ℚ)))) ∧
      0 ≤ (_composite_risk pq w s k).score ∧ (_composite_risk pq w s k).score ≤ 1 ∧
      ((_composite_risk pq w s k).breakdown.clamped = true ↔
        (_composite_risk pq w s k).score ≠
          (_composite_risk pq w s k).breakdown.model_probability
          + (_composite_risk pq w s k).breakdown.weak_company
          + (_composite_risk pq w s k).breakdown.suspicion_score
          + (_composite_risk pq w s k).breakdown.keyword_hits)) ∧
    (∀ (m : PyModel) (t d r p : Option (List Char)) (fo em en : Option PyVal)
        (cs : Option (List Char)) (mw se sp ss : Option PyVal) (res : PredictionResult),
      predict_job m t d r p fo em en cs mw se sp ss = some res →
        0 ≤ res.risk_score ∧ res.risk_score ≤ 1) := by
  constructor
  · intro pq w s k
    refine ⟨rfl, (composite_score_mem_unit pq w s k).1, (composite_score_mem_unit pq w s k).2, ?_⟩
    unfold _composite_risk
    dsimp only
    exact decide_eq_true_iff
  · intro m t d r p fo em en cs mw se sp ss res h
    obtain ⟨prob, ssi, mwi, sei, spi, hp, h1, h2, h3, h4, hres⟩ := predict_job_inv h
    subst hres
    exact buildResult_risk_mem_unit _ _ _ _ _ _ _ _ _ _ _ _ _

/-- Witness for C4 on a concrete call. -/
theorem C4_witness :
    0 ≤ ((predict_job testModel none none none none none none none none none none none
        none).getD dfltResult).risk_score ∧
      ((predict_job testModel none none none none none none none none none none none
        none).getD dfltResult).risk_score ≤ 1 :=
  C4_theorem.2 testModel none none none none none none none none none none none none
    ((predict_job testModel none none none none none none none none none none none
      none).getD dfltResult)
    (opt_eq_some_getD dfltResult (by decide))

/-- C5: the returned prediction label is `scam` exactly when the raw model
probability is at least 1/2 and `legit` exactly when it is below 1/2; the
probability is extracted from the text alone, so heuristic contributions and
the composite risk score never influence the label. -/
theorem C5_theorem (m : PyModel) (t d r p : Option (List Char)) (fo em en : Option PyVal)
    (cs : Option (List Char)) (mw se sp ss : Option PyVal) (res : PredictionResult) (prob : ℚ)
    (h : predict_job m t d r p fo em en cs mw se sp ss = some res)
    (hp : probScam m (combineText t d r p) = some prob) :
    (res.prediction = ("scam").data ↔ (1 : ℚ)/2 ≤ prob) ∧
    (res.prediction = ("legit").data ↔ prob < (1 : ℚ)/2) := by
  obtain ⟨prob', ssi, mwi, sei, spi, hp', h1, h2, h3, h4, hres⟩ := predict_job_inv h
  rw [hp] at hp'
  obtain rfl : prob = prob' := Option.some.inj hp'
  subst hres
  have hpred : (buildResult t d r p fo em en cs prob ssi mwi sei spi).prediction =
      (if (1 : ℚ)/2 ≤ prob then ("scam").data else ("legit").data) := rfl
  rw [hpred]
  by_cases hle : (1 : ℚ)/2 ≤ prob
  · rw [if_pos hle]
    exact ⟨iff_of_true rfl hle, iff_of_false (by decide) (not_lt.mpr hle)⟩
  · rw [if_neg hle]
    exact ⟨iff_of_false (by decide) hle, iff_of_true rfl (not_le.mp hle)⟩

/-- Witness for C5 on a concrete call whose model probability is 7/10. -/
theorem C5_witness :
    (((predict_job testModel none none none none none none none none none none none
        none).getD dfltResult).prediction = ("scam").data ↔ (1 : ℚ)/2 ≤ 7/10) ∧
    (((predict_job testModel none none none none none none none none none none none
        none).getD dfltResult).prediction = ("legit").data ↔ (7 : ℚ)/10 < 1/2) :=
  C5_theorem testModel none none none none none none none none none none none none
    ((predict_job testModel none none none none none none none none none none none
      none).getD dfltResult) ((7 : ℚ)/10)
    (opt_eq_some_getD dfltResult (by decide)) rfl

/-- C10: two successful calls sharing the four text fields return the same
prediction label and the same probabilities, whatever the enrichment
parameters (follower/employee/engagement counts, company strength, flags,
suspicion score) are in each call. -/
theorem C10_theorem (m : PyModel) (t d r p : Option (List Char))
    (fo1 em1 en1 : Option PyVal) (cs1 : Option (List Char)) (mw1 se1 sp1 ss1 : Option PyVal)
    (fo2 em2 en2 : Option PyVal) (cs2 : Option (List Char)) (mw2 se2 sp2 ss2 : Option PyVal)
    (r1 r2 : PredictionResult)
    (h1 : predict_job m t d r p fo1 em1 en1 cs1 mw1 se1 sp1 ss1 = some r1)
    (h2 : predict_job m t d r p fo2 em2 en2 cs2 mw2 se2 sp2 ss2 = some r2) :
    r1.prediction = r2.prediction ∧ r1.probabilities = r2.probabilities := by
  obtain ⟨p1, a1, b1, c1, d1, hp1, _, _, _, _, hr1⟩ := predict_job_inv h1
  obtain ⟨p2, a2, b2, c2, d2, hp2, _, _, _, _, hr2⟩ := predict_job_inv h2
  rw [hp1] at hp2
  obtain rfl : p1 = p2 := Option.some.inj hp2
  subst hr1
  subst hr2
  exact ⟨rfl, rfl⟩

/-- Witness for C10: same text, very different enrichment inputs. -/
theorem C10_witness :
    ((predict_job testModel none (some ("hello").data) none none none none none none none
        none none none).getD dfltResult).prediction =
      ((predict_job testModel none (some ("hello").data) none none (some (PyVal.vint 99999))
        (some (PyVal.vint 500)) (some (PyVal.vint 50)) (some ("strong").data)
        (some (PyVal.vint 0)) (some (PyVal.vint 0)) (some (PyVal.vint 0))
        (some (PyVal.vint 0))).getD dfltResult).prediction ∧
    ((predict_job testModel none (some ("hello").data) none none none none none none none
        none none none).getD dfltResult).probabilities =
      ((predict_job testModel none (some ("hello").data) none none (some (PyVal.vint 99999))
        (some (PyVal.vint 500)) (some (PyVal.vint 50)) (some ("strong").data)
        (some (PyVal.vint 0)) (some (PyVal.vint 0)) (some (PyVal.vint 0))
        (some (PyVal.vint 0))).getD dfltResult).probabilities :=
  C10_theorem testModel none (some ("hello").data) none none
    none none none none none none none none
    (some (PyVal.vint 99999)) (some (PyVal.vint 500)) (some (PyVal.vint 50))
    (some ("strong").data) (some (PyVal.vint 0)) (some (PyVal.vint 0))
    (some (PyVal.vint 0)) (some (PyVal.vint 0))
    ((predict_job testModel none (some ("hello").data) none none none none none none none
      none none none).getD dfltResult)
    ((predict_job testModel none (some ("hello").data) none none (some (PyVal.vint 99999))
      (some (PyVal.vint 500)) (some (PyVal.vint 50)) (some ("strong").data)
      (some (PyVal.vint 0)) (some (PyVal.vint 0)) (some (PyVal.vint 0))
      (some (PyVal.vint 0))).getD dfltResult)
    (opt_eq_some_getD dfltResult (by decide)) (opt_eq_some_getD dfltResult (by decide))

/-- C6: each of the four flag fields the caller supplies as an integer is
returned exactly as supplied, with no recomputation — in particular a
supplied `suspicion_score` of any value, 0 included, is honored — and each
field the caller omits is replaced by its heuristically derived value. -/
theorem C6_theorem (m : PyModel) (t d r p : Option (List Char)) (fo em en : Option PyVal)
    (cs : Option (List Char)) (mw se sp ss : Option PyVal) (res : PredictionResult)
    (h : predict_job m t d r p fo em en cs mw se sp ss = some res) :
    (∀ a : ℤ, mw = some (PyVal.vint a) → res.signals.missing_website_flag = a) ∧
    (∀ a : ℤ, se = some (PyVal.vint a) → res.signals.suspicious_email_flag = a) ∧
    (∀ a : ℤ, sp = some (PyVal.vint a) → res.signals.short_profile_flag = a) ∧
    (∀ a : ℤ, ss = some (PyVal.vint a) → res.signals.suspicion_score = a) ∧
    (mw = none → res.signals.missing_website_flag =
      (_heuristic_flags p d r).missing_website_flag) ∧
    (se = none → res.signals.suspicious_email_flag =
      (_heuristic_flags p d r).suspicious_email_flag) ∧
    (sp = none → res.signals.short_profile_flag =
      (_heuristic_flags p d r).short_profile_flag) ∧
    (ss = none → res.signals.suspicion_score = (_heuristic_flags p d r).suspicion_score) := by
  obtain ⟨prob, ssi, mwi, sei, spi, hp, hss, hmw, hse, hsp, hres⟩ := predict_job_inv h
  subst hres
  refine ⟨?_, ?_, ?_, ?_, ?_, ?_, ?_, ?_⟩
  · intro a ha
    rw [ha] at hmw
    simp only [Option.getD_some, coerceInt, Option.some.injEq] at hmw
    exact hmw.symm
  · intro a ha
    rw [ha] at hse
    simp only [Option.getD_some, coerceInt, Option.some.injEq] at hse
    exact hse.symm
  · intro a ha
    rw [ha] at hsp
    simp only [Option.getD_some, coerceInt, Option.some.injEq] at hsp
    exact hsp.symm
  · intro a ha
    rw [ha] at hss
    simp only [Option.getD_some, coerceInt, Option.some.injEq] at hss
    exact hss.symm
  · intro ha
    rw [ha] at hmw
    simp only [Option.getD_none, coerceInt, Option.some.injEq] at hmw
    exact hmw.symm
  · intro ha
    rw [ha] at hse
    simp only [Option.getD_none, coerceInt, Option.some.injEq] at hse
    exact hse.symm
  · intro ha
    rw [ha] at hsp
    simp only [Option.getD_none, coerceInt, Option.some.injEq] at hsp
    exact hsp.symm
  · intro ha
    rw [ha] at hss
    simp only [Option.getD_none, coerceInt, Option.some.injEq] at hss
    exact hss.symm

/-- Witness for C6: the caller supplies `suspicion_score = 0` while the text
would heuristically yield 3, and the supplied 0 is honored. -/
theorem C6_witness :
    (∀ a : ℤ, (none : Option PyVal) = some (PyVal.vint a) →
      (((predict_job testModel none (some ("contact gmail team").data) none none none none
        none none none none none (some (PyVal.vint 0))).getD
        dfltResult)).signals.missing_website_flag = a) ∧
    (∀ a : ℤ, (none : Option PyVal) = some (PyVal.vint a) →
      (((predict_job testModel none (some ("contact gmail team").data) none none none none
        none none none none none (some (PyVal.vint 0))).getD
        dfltResult)).signals.suspicious_email_flag = a) ∧
    (∀ a : ℤ, (none : Option PyVal) = some (PyVal.vint a) →
      (((predict_job testModel none (some ("contact gmail team").data) none none none none
        none none none none none (some (PyVal.vint 0))).getD
        dfltResult)).signals.short_profile_flag = a) ∧
    (∀ a : ℤ, (some (PyVal.vint 0) : Option PyVal) = some (PyVal.vint a) →
      (((predict_job testModel none (some ("contact gmail team").data) none none none none
        none none none none none (some (PyVal.vint 0))).getD
        dfltResult)).signals.suspicion_score = a) ∧
    ((none : Option PyVal) = none →
      (((predict_job testModel none (some ("contact gmail team").data) none none none none
        none none none none none (some (PyVal.vint 0))).getD
        dfltResult)).signals.missing_website_flag =
        (_heuristic_flags none (some ("contact gmail team").data) none).missing_website_flag) ∧
    ((none : Option PyVal) = none →
      (((predict_job testModel none (some ("contact gmail team").data) none none none none
        none none none none none (some (PyVal.vint 0))).getD
        dfltResult)).signals.suspicious_email_flag =
        (_heuristic_flags none (some ("contact gmail team").data) none).suspicious_email_flag) ∧
    ((none : Option PyVal) = none →
      (((predict_job testModel none (some ("contact gmail team").data) none none none none
        none none none none none (some (PyVal.vint 0))).getD
        dfltResult)).signals.short_profile_flag =
        (_heuristic_flags none (some ("contact gmail team").data) none).short_profile_flag) ∧
    ((some (PyVal.vint 0) : Option PyVal) = none →
      (((predict_job testModel none (some ("contact gmail team").data) none none none none
        none none none none none (some (PyVal.vint 0))).getD
        dfltResult)).signals.suspicion_score =
        (_heuristic_flags none (some ("contact gmail team").data) none).suspicion_score) :=
  C6_theorem testModel none (some ("contact gmail team").data) none none none none none
    none none none none (some (PyVal.vint 0))
    ((predict_job testModel none (some ("contact gmail team").data) none none none none
      none none none none none (some (PyVal.vint 0))).getD dfltResult)
    (opt_eq_some_getD dfltResult (by decide))

/-- C2 (amended): when the four flag parameters, if supplied, are
integer-coercible (and the artifact's probability lookup succeeds, as it
does for the shipped two-class model), `predict_job` returns a fully
populated result; the three enrichment counts degrade to the default 0
whenever their coercion fails. -/
theorem C2_theorem (m : PyModel) (t d r p : Option (List Char)) (fo em en : Option PyVal)
    (cs : Option (List Char)) (mw se sp ss : Option PyVal)
    (hm : (probScam m (combineText t d r p)).isSome = true)
    (hmw : ∀ v, mw = some v → (coerceInt v).isSome = true)
    (hse : ∀ v, se = some v → (coerceInt v).isSome = true)
    (hsp : ∀ v, sp = some v → (coerceInt v).isSome = true)
    (hss : ∀ v, ss = some v → (coerceInt v).isSome = true) :
    (∃ res, predict_job m t d r p fo em en cs mw se sp ss = some res ∧
      res.signals.followers = _safe_int fo 0 ∧
      res.signals.employees = _safe_int em 0 ∧
      res.signals.engagement = _safe_int en 0) ∧
    (∀ v, coerceInt v = none → _safe_int (some v) 0 = 0) := by
  obtain ⟨prob, hp⟩ := Option.isSome_iff_exists.mp hm
  have getSome : ∀ (o : Option PyVal), (∀ v, o = some v → (coerceInt v).isSome = true) →
      ∀ dflt : ℤ, ∃ i, coerceInt (o.getD (PyVal.vint dflt)) = some i := by
    intro o hyp dflt
    cases o with
    | none => exact ⟨dflt, rfl⟩
    | some v =>
      obtain ⟨i, hi⟩ := Option.isSome_iff_exists.mp (hyp v rfl)
      exact ⟨i, hi⟩
  obtain ⟨ssi, hssi⟩ := getSome ss hss _
  obtain ⟨mwi, hmwi⟩ := getSome mw hmw _
  obtain ⟨sei, hsei⟩ := getSome se hse _
  obtain ⟨spi, hspi⟩ := getSome sp hsp _
  refine ⟨⟨buildResult t d r p fo em en cs prob ssi mwi sei spi,
    predict_job_eq_some hp hssi hmwi hsei hspi, rfl, rfl, rfl⟩, ?_⟩
  intro v hv
  simp [_safe_int, hv]

/-- The claim as frozen is false: a non-coercible value supplied for
`missing_website_flag` reaches the unguarded `int(...)` at line 195 and the
call raises instead of returning a result. -/
theorem C2_counterexample :
    predict_job testModel none none none none none none none none
      (some PyVal.vother) none none none = none := by decide

/-- Witness for C2 with a non-coercible `followers` value degrading to 0. -/
theorem C2_witness :
    (∃ res, predict_job testModel none none none none (some PyVal.vother) none none none
        none none none none = some res ∧
      res.signals.followers = _safe_int (some PyVal.vother) 0 ∧
      res.signals.employees = _safe_int none 0 ∧
      res.signals.engagement = _safe_int none 0) ∧
    (∀ v, coerceInt v = none → _safe_int (some v) 0 = 0) :=
  C2_theorem testModel none none none none (some PyVal.vother) none none none none none
    none none (by decide) (fun v h => nomatch h) (fun v h => nomatch h)
    (fun v h => nomatch h) (fun v h => nomatch h)

/-- First-occurrence property of `listIndex`. -/
theorem listIndex_spec (a : ℤ) (l : List ℤ) (i : ℕ) (h : listIndex a l = some i) :
    l.get? i = some a ∧ ∀ j, j < i → l.get? j ≠ some a := by
  induction l generalizing i with
  | nil => simp [listIndex] at h
  | cons x xs ih =>
    by_cases hx : x = a
    · simp only [listIndex, if_pos hx, Option.some.injEq] at h
      subst h
      exact ⟨by simp [hx], fun j hj => absurd hj (Nat.not_lt_zero j)⟩
    · simp only [listIndex, if_neg hx, Option.map_eq_some'] at h
      obtain ⟨i', hi', rfl⟩ := h
      obtain ⟨h1, h2⟩ := ih i' hi'
      refine ⟨by simpa using h1, ?_⟩
      intro j hj
      cases j with
      | zero => simp [hx]
      | succ j' =>
        have := h2 j' (by omega)
        simpa using this

/-- `listIndex` succeeds on members. -/
theorem listIndex_ne_none (a : ℤ) (l : List ℤ) (h : a ∈ l) : listIndex a l ≠ none := by
  induction l with
  | nil => simp at h
  | cons x xs ih =>
    by_cases hx : x = a
    · simp [listIndex, hx]
    · have h' : a ∈ xs := by
        rcases List.mem_cons.mp h with rfl | h' <;> [exact absurd rfl hx; exact h']
      simp [listIndex, hx, Option.map_eq_none']
      exact ih h'

/-- `listIndex` fails exactly on non-members. -/
theorem listIndex_eq_none_of_not_mem (a : ℤ) (l : List ℤ) (h : a ∉ l) :
    listIndex a l = none := by
  induction l with
  | nil => rfl
  | cons x xs ih =>
    have hx : ¬ x = a := by
      rintro rfl
      exact h (List.mem_cons_self x xs)
    have h' : a ∉ xs := fun hh => h (List.mem_cons_of_mem x hh)
    rw [listIndex, if_neg hx, ih h']
    rfl

/-- C3 (amended): when the model exposes no class ordering, the default
sequence `[0, 1]` is assumed; whenever label 1 occurs in the (possibly
defaulted) class sequence, its first position is chosen as the index; only
when label 1 is absent does the length-guarded fallback apply (index 1 for
at least two probabilities, else index 0); and extraction succeeds exactly
when the chosen index is inside the probability vector. -/
theorem C3_theorem :
    (∀ m : PyModel, m.classes_opt = none → classSeq m = [0, 1]) ∧
    (∀ (m : PyModel) (proba : List ℚ), (1 : ℤ) ∈ classSeq m →
      (classSeq m).get? (idxScam m proba) = some 1 ∧
      ∀ j, j < idxScam m proba → (classSeq m).get? j ≠ some 1) ∧
    (∀ (m : PyModel) (proba : List ℚ), (1 : ℤ) ∉ classSeq m →
      idxScam m proba = if 2 ≤ proba.length then 1 else 0) ∧
    (∀ (m : PyModel) (t : List Char),
      (probScam m t).isSome = true ↔
        idxScam m (m.predict_proba t) < (m.predict_proba t).length) := by
  refine ⟨?_, ?_, ?_, ?_⟩
  · intro m h
    unfold classSeq
    rw [h]
    rfl
  · intro m proba hmem
    cases hli : listIndex 1 (classSeq m) with
    | none => exact absurd hli (listIndex_ne_none 1 _ hmem)
    | some i =>
      have hidx : idxScam m proba = i := by unfold idxScam; rw [hli]
      obtain ⟨hg, hmin⟩ := listIndex_spec 1 _ i hli
      rw [hidx]
      exact ⟨hg, hmin⟩
  · intro m proba hmem
    unfold idxScam
    rw [listIndex_eq_none_of_not_mem 1 _ hmem]
    rfl
  · intro m t
    unfold probScam
    dsimp only
    simp only [Option.isSome_iff_ne_none, ne_eq, List.get?_eq_none]
    exact not_le

/-- The claim as frozen is false: for a model exposing no class ordering
and a one-entry probability vector, the claim prescribes index 0 and a
successful extraction, but the code defaults the class sequence to `[0, 1]`,
finds label 1 at position 1, and the extraction raises `IndexError`. -/
theorem C3_counterexample :
    oneClassModel.classes_opt = none ∧ (oneClassModel.predict_proba []).length = 1 ∧
    idxScam oneClassModel (oneClassModel.predict_proba []) = 1 ∧
    probScam oneClassModel [] = none := by decide

/-- Witness for C3: the two-class model finds label 1 first at position 1. -/
theorem C3_witness :
    (classSeq testModel).get? (idxScam testModel []) = some 1 ∧
    ∀ j, j < idxScam testModel [] → (classSeq testModel).get? j ≠ some 1 :=
  C3_theorem.2.1 testModel [] (by decide)

/-- If everything surviving `dropWhile` is whitespace, everything was. -/
theorem all_space_of_dropWhile (l : List Char)
    (h : ∀ c ∈ l.dropWhile pyIsSpace, pyIsSpace c = true) :
    ∀ c ∈ l, pyIsSpace c = true := by
  induction l with
  | nil => simp
  | cons c cs ih =>
    by_cases hc : pyIsSpace c = true
    · intro x hx
      rcases List.mem_cons.mp hx with rfl | hx'
      · exact hc
      · refine ih ?_ x hx'
        rw [List.dropWhile_cons, if_pos hc] at h
        exact h
    · intro x hx
      apply h
      rw [List.dropWhile_cons, if_neg hc]
      exact hx

/-- A string that strips to nothing is entirely whitespace. -/
theorem pyStrip_nil_all_space (l : List Char) (h : pyStrip l = []) :
    ∀ c ∈ l, pyIsSpace c = true := by
  unfold pyStrip at h
  rw [List.reverse_eq_nil_iff, List.dropWhile_eq_nil_iff] at h
  apply all_space_of_dropWhile
  intro c hc
  exact h c (List.mem_reverse.mpr hc)

/-- Splitting an all-whitespace string produces no words. -/
theorem pySplitAux_all_space (l : List Char) (h : ∀ c ∈ l, pyIsSpace c = true) :
    pySplitAux l [] = [] := by
  induction l with
  | nil => rfl
  | cons c cs ih =>
    have hc := h c (List.mem_cons_self c cs)
    have h' : ∀ x ∈ cs, pyIsSpace x = true := fun x hx => h x (List.mem_cons_of_mem c hx)
    simp [pySplitAux, hc, ih h']

/-- Every heuristic flag is 0 or 1 and the heuristic suspicion score is
their sum. -/
theorem heur_flag_cases (p d r : Option (List Char)) :
    ((_heuristic_flags p d r).missing_website_flag = 0 ∨
      (_heuristic_flags p d r).missing_website_flag = 1) ∧
    ((_heuristic_flags p d r).suspicious_email_flag = 0 ∨
      (_heuristic_flags p d r).suspicious_email_flag = 1) ∧
    ((_heuristic_flags p d r).short_profile_flag = 0 ∨
      (_heuristic_flags p d r).short_profile_flag = 1) ∧
    (_heuristic_flags p d r).suspicion_score =
      (_heuristic_flags p d r).missing_website_flag +
        (_heuristic_flags p d r).suspicious_email_flag +
        (_heuristic_flags p d r).short_profile_flag := by
  unfold _heuristic_flags
  dsimp only
  refine ⟨?_, ?_, ?_, rfl⟩ <;> split_ifs <;> simp

/-- A profile splitting into exactly 30 words does not set the
short-profile flag. -/
theorem short_flag_of_thirty (profile : List Char) (d r : Option (List Char))
    (h : (pySplit profile).length = 30) :
    (_heuristic_flags (some profile) d r).short_profile_flag = 0 := by
  have hP : ¬((pyStrip profile).length = 0 ∨ (pySplit profile).length < 30) := by
    push_neg
    constructor
    · intro hlen
      have hnil : pyStrip profile = [] := List.length_eq_zero.mp hlen
      have hall := pyStrip_nil_all_space profile hnil
      have hsplit := pySplitAux_all_space profile hall
      rw [pySplit, hsplit] at h
      simp at h
    · omega
  unfold _heuristic_flags
  dsimp only
  simp only [Option.getD_some]
  rw [if_neg hP]

/-- C7: when none of the four flag parameters is supplied, each returned
flag is 0 or 1, the returned suspicion score is exactly the sum of the three
returned flags (hence between 0 and 3); and a company profile of exactly 30
whitespace-delimited words yields `short_profile_flag = 0`. -/
theorem C7_theorem :
    (∀ (m : PyModel) (t d r p : Option (List Char)) (fo em en : Option PyVal)
        (cs : Option (List Char)) (res : PredictionResult),
      predict_job m t d r p fo em en cs none none none none = some res →
        (res.signals.missing_website_flag = 0 ∨ res.signals.missing_website_flag = 1) ∧
        (res.signals.suspicious_email_flag = 0 ∨ res.signals.suspicious_email_flag = 1) ∧
        (res.signals.short_profile_flag = 0 ∨ res.signals.short_profile_flag = 1) ∧
        res.signals.suspicion_score =
          res.signals.missing_website_flag + res.signals.suspicious_email_flag +
            res.signals.short_profile_flag ∧
        0 ≤ res.signals.suspicion_score ∧ res.signals.suspicion_score ≤ 3) ∧
    (∀ (profile : List Char) (d r : Option (List Char)),
      (pySplit profile).length = 30 →
        (_heuristic_flags (some profile) d r).short_profile_flag = 0) := by
  constructor
  · intro m t d r p fo em en cs res h
    obtain ⟨prob, ssi, mwi, sei, spi, hp, hss, hmw, hse, hsp, hres⟩ := predict_job_inv h
    subst hres
    simp only [Option.getD_none, coerceInt, Option.some.injEq] at hss hmw hse hsp
    subst hss
    subst hmw
    subst hse
    subst hsp
    obtain ⟨hm01, hs01, hq01, hsum⟩ := heur_flag_cases p d r
    refine ⟨hm01, hs01, hq01, hsum, ?_, ?_⟩
    · show (0 : ℤ) ≤ (_heuristic_flags p d r).suspicion_score
      omega
    · show (_heuristic_flags p d r).suspicion_score ≤ 3
      omega
  · intro profile d r h
    exact short_flag_of_thirty profile d r h

/-- Witness for C7 on a fully heuristic call and a 30-word profile. -/
theorem C7_witness :
    ((((predict_job testModel none none none none none none none none none none none
          none).getD dfltResult)).signals.missing_website_flag = 0 ∨
      (((predict_job testModel none none none none none none none none none none none
          none).getD dfltResult)).signals.missing_website_flag = 1) ∧
    (_heuristic_flags
      (some ("a a a a a a a a a a a a a a a a a a a a a a a a a a a a a a").data)
      none none).short_profile_flag = 0 :=
  ⟨(C7_theorem.1 testModel none none none none none none none none
      ((predict_job testModel none none none none none none none none none none none
        none).getD dfltResult) (opt_eq_some_getD dfltResult (by decide))).1,
   C7_theorem.2 (("a a a a a a a a a a a a a a a a a a a a a a a a a a a a a a").data)
     none none (by decide)⟩

/-- Correctness of the substring test: a match is exactly a decomposition
around the pattern. -/
theorem containsSub_iff (pat l : List Char) :
    containsSub pat l = true ↔ ∃ pre suf, pre ++ pat ++ suf = l := by
  induction l with
  | nil =>
    constructor
    · intro h
      have hpat : pat = [] := by simpa [containsSub, List.isEmpty_iff] using h
      exact ⟨[], [], by simp [hpat]⟩
    · rintro ⟨pre, suf, heq⟩
      simp only [List.append_eq_nil] at heq
      simp [containsSub, List.isEmpty_iff, heq.1.2]
  | cons c rest ih =>
    rw [show containsSub pat (c :: rest) =
      (pat.isPrefixOf (c :: rest) || containsSub pat rest) from rfl]
    rw [Bool.or_eq_true, List.isPrefixOf_iff_prefix, ih]
    constructor
    · rintro (⟨tl, htl⟩ | ⟨pre, suf, heq⟩)
      · exact ⟨[], tl, by simpa using htl⟩
      · exact ⟨c :: pre, suf, by simpa using congrArg (fun x => c :: x) heq⟩
    · rintro ⟨pre, suf, heq⟩
      cases pre with
      | nil => exact Or.inl ⟨suf, by simpa using heq⟩
      | cons c' pre' =>
        have h2 : c' :: (pre' ++ pat ++ suf) = c :: rest := by simpa using heq
        injection h2 with hc hrest
        exact Or.inr ⟨pre', suf, hrest⟩

/-- Head-match characterization for the `gmail.com` pattern. -/
theorem gmailHere_iff (l : List Char) :
    gmailHere l = true ↔ ∃ ch tail, ch ≠ '\n' ∧
      l = 'g' :: 'm' :: 'a' :: 'i' :: 'l' :: ch :: 'c' :: 'o' :: 'm' :: tail := by
  constructor
  · intro h
    unfold gmailHere at h
    split at h
    · rename_i ch tail
      exact ⟨ch, tail, of_decide_eq_true h, rfl⟩
    · exact absurd h (by simp)
  · rintro ⟨ch, tail, hch, rfl⟩
    exact decide_eq_true hch

/-- Search characterization for the `gmail.com` pattern: a match anywhere is
a decomposition around `gmail`, one non-newline character, and `com`. -/
theorem searchGmailCom_iff (l : List Char) :
    searchGmailCom l = true ↔ ∃ ch pre suf, ch ≠ '\n' ∧
      pre ++ ('g' :: 'm' :: 'a' :: 'i' :: 'l' :: ch :: 'c' :: 'o' :: 'm' :: []) ++ suf = l := by
  induction l with
  | nil =>
    constructor
    · intro h
      simp [searchGmailCom] at h
    · rintro ⟨ch, pre, suf, hch, heq⟩
      simp at heq
  | cons c rest ih =>
    rw [show searchGmailCom (c :: rest) = (gmailHere (c :: rest) || searchGmailCom rest)
      from rfl]
    rw [Bool.or_eq_true, gmailHere_iff, ih]
    constructor
    · rintro (⟨ch, tail, hch, heq⟩ | ⟨ch, pre, suf, hch, heq⟩)
      · exact ⟨ch, [], tail, hch, by rw [heq]; simp⟩
      · exact ⟨ch, c :: pre, suf, hch, by simpa using congrArg (fun x => c :: x) heq⟩
    · rintro ⟨ch, pre, suf, hch, heq⟩
      cases pre with
      | nil => exact Or.inl ⟨ch, suf, hch, by simpa using heq.symm⟩
      | cons c' pre' =>
        have h2 : c' :: (pre' ++ ('g' :: 'm' :: 'a' :: 'i' :: 'l' :: ch :: 'c' :: 'o' :: 'm'
            :: []) ++ suf) = c :: rest := by simpa using heq
        injection h2 with hc hrest
        exact Or.inr ⟨ch, pre', suf, hch, hrest⟩

/-- The claim as frozen is false: with description `earn $500 now`, the
keyword `earn $` occurs literally in the lower-cased concatenation, yet the
returned `keywords_triggered` list is empty — `re.search` reads `$` as an
end anchor, not as a literal dollar sign. -/
theorem C1_counterexample :
    containsSub ("earn $").data
      (pyLower (combineText none (some ("earn $500 now").data) none none)) = true ∧
    (predict_job testModel none (some ("earn $500 now").data) none none none none none none
      none none none none).map (fun r => r.signals.keywords_triggered) = some [] := by
  decide

/-- C1 (amended): `keywords_triggered` is an in-order sublist of
`SCAM_KEYWORDS`; each of the eight metacharacter-free keywords is triggered
exactly when its text occurs literally in the lower-cased concatenation;
`earn $` is triggered exactly when the concatenation ends with `earn `
(optionally followed by one final newline); and `gmail.com` is triggered
exactly when `gmail`, one non-newline character, and `com` occur
consecutively. -/
theorem C1_theorem (m : PyModel) (t d r p : Option (List Char)) (fo em en : Option PyVal)
    (cs : Option (List Char)) (mw se sp ss : Option PyVal) (res : PredictionResult)
    (h : predict_job m t d r p fo em en cs mw se sp ss = some res) :
    res.signals.keywords_triggered.Sublist SCAM_KEYWORDS ∧
    (∀ kw, kw ∈ SCAM_KEYWORDS → kw ≠ ("earn $").data → kw ≠ ("gmail.com").data →
      (kw ∈ res.signals.keywords_triggered ↔
        ∃ pre suf, pre ++ kw ++ suf = pyLower (combineText t d r p))) ∧
    (("earn $").data ∈ res.signals.keywords_triggered ↔
      (∃ pre, pre ++ ("earn ").data = pyLower (combineText t d r p)) ∨
      (∃ pre, pre ++ ("earn \n").data = pyLower (combineText t d r p))) ∧
    (("gmail.com").data ∈ res.signals.keywords_triggered ↔
      ∃ ch pre suf, ch ≠ '\n' ∧
        pre ++ ('g' :: 'm' :: 'a' :: 'i' :: 'l' :: ch :: 'c' :: 'o' :: 'm' :: []) ++ suf =
          pyLower (combineText t d r p)) := by
  obtain ⟨prob, ssi, mwi, sei, spi, hp, h1, h2, h3, h4, hres⟩ := predict_job_inv h
  subst hres
  have hkt : (buildResult t d r p fo em en cs prob ssi mwi sei spi).signals.keywords_triggered
      = SCAM_KEYWORDS.filter
          (fun kw => kwMatches kw (pyLower (combineText t d r p))) := rfl
  refine ⟨?_, ?_, ?_, ?_⟩
  · rw [hkt]
    exact List.filter_sublist _
  · intro kw hkw hne1 hne2
    rw [hkt, List.mem_filter]
    have hm : kwMatches kw (pyLower (combineText t d r p)) =
        containsSub kw (pyLower (combineText t d r p)) := by
      unfold kwMatches
      rw [if_neg hne1, if_neg hne2]
    rw [hm]
    constructor
    · rintro ⟨_, hc⟩
      exact (containsSub_iff kw _).mp hc
    · intro hex
      exact ⟨hkw, (containsSub_iff kw _).mpr hex⟩
  · rw [hkt, List.mem_filter]
    have hm : kwMatches ("earn $").data (pyLower (combineText t d r p)) =
        (("earn ").data.isSuffixOf (pyLower (combineText t d r p)) ||
          ("earn \n").data.isSuffixOf (pyLower (combineText t d r p))) := by
      unfold kwMatches
      rw [if_pos rfl]
    rw [hm]
    constructor
    · rintro ⟨_, hc⟩
      simp only [Bool.or_eq_true] at hc
      rcases hc with hc1 | hc2
      · obtain ⟨pre, hpre⟩ := List.isSuffixOf_iff_suffix.mp hc1
        exact Or.inl ⟨pre, hpre⟩
      · obtain ⟨pre, hpre⟩ := List.isSuffixOf_iff_suffix.mp hc2
        exact Or.inr ⟨pre, hpre⟩
    · intro hex
      refine ⟨by decide, ?_⟩
      simp only [Bool.or_eq_true]
      rcases hex with ⟨pre, hpre⟩ | ⟨pre, hpre⟩
      · exact Or.inl (List.isSuffixOf_iff_suffix.mpr ⟨pre, hpre⟩)
      · exact Or.inr (List.isSuffixOf_iff_suffix.mpr ⟨pre, hpre⟩)
  · rw [hkt, List.mem_filter]
    have hm : kwMatches ("gmail.com").data (pyLower (combineText t d r p)) =
        searchGmailCom (pyLower (combineText t d r p)) := by
      unfold kwMatches
      rw [if_neg (by decide), if_pos rfl]
    rw [hm]
    constructor
    · rintro ⟨_, hc⟩
      exact (searchGmailCom_iff _).mp hc
    · intro hex
      exact ⟨by decide, (searchGmailCom_iff _).mpr hex⟩

/-- Witness for C1 on a call that triggers several keywords. -/
theorem C1_witness :
    (((predict_job testModel none (some ("work from home via telegram").data) none none none
        none none none none none none none).getD
        dfltResult)).signals.keywords_triggered.Sublist SCAM_KEYWORDS :=
  (C1_theorem testModel none (some ("work from home via telegram").data) none none none none
    none none none none none none
    ((predict_job testModel none (some ("work from home via telegram").data) none none none
      none none none none none none none).getD dfltResult)
    (opt_eq_some_getD dfltResult (by decide))).1

end FakeJobGuru
